import Mathlib

/-!
Shallow embedding of the Panda Royale personal score sheet
(the `App` component and its helper functions): the scoring engine
(`computeRowTotal`, `buildCsvString`), the session state with its
user-triggerable operations (`setField`, `doneRound`, `resetAll`, the
numeric coercions of `CellNumber` / `NumberInput`, the default-red-count
controls), the persisted-snapshot load, and the reachable-state relation
generated by the operations.
-/

namespace PandaRoyale

/-- Number of rounds: `const ROUNDS = 10`. -/
def ROUNDS : Nat := 10

/-- A JavaScript value inhabiting a numeric row field: a finite number,
`NaN`, `Infinity`, `-Infinity`, or `undefined` (absent field). -/
inductive JNum where
  | fin (n : Int)
  | nan
  | inf
  | ninf
  | undef
deriving DecidableEq

/-- Source `clampNum = (n) => (Number.isFinite(+n) ? +n : 0)`: finite numbers are
kept, every non-finite or absent value is coerced to 0. -/
def clampNum : JNum → Int
  | .fin n => n
  | .nan => 0
  | .inf => 0
  | .ninf => 0
  | .undef => 0

/-- One round record, as produced by `makeBlankRow` and mutated by the app. -/
structure Row where
  y : JNum
  purp : JNum
  blue : JNum
  redSum : JNum
  redCount : JNum
  green : JNum
  clear : JNum
  pink : JNum
  locked : Bool
deriving DecidableEq

/-- Helper `makeBlankRow`: all fields 0, unlocked. -/
def makeBlankRow : Row :=
  { y := .fin 0, purp := .fin 0, blue := .fin 0, redSum := .fin 0,
    redCount := .fin 0, green := .fin 0, clear := .fin 0, pink := .fin 0,
    locked := false }

/-- Helper `makeBlankRows(n)`: `Array.from({length: n}, makeBlankRow)`. -/
def makeBlankRows (n : Nat := ROUNDS) : List Row :=
  List.replicate n makeBlankRow

/-- Function `computeRowTotal(row, hasGlitterBlue)`: the row score. -/
def computeRowTotal (row : Row) (hasGlitterBlue : Bool) : Int :=
  let y := clampNum row.y
  let p := clampNum row.purp * 2
  let b := clampNum row.blue * (if hasGlitterBlue then 2 else 1)
  let red := clampNum row.redSum * clampNum row.redCount
  let g := clampNum row.green
  let c := clampNum row.clear
  let k := clampNum row.pink
  y + p + b + red + g + c + k

/-- JavaScript multiplication by 2 on a row-field value (`r.purp * 2`):
`undefined` coerces to `NaN`, infinities keep their sign. -/
def jmul2 : JNum → JNum
  | .fin n => .fin (n * 2)
  | .nan => .nan
  | .inf => .inf
  | .ninf => .ninf
  | .undef => .nan

/-- JavaScript `v || 0` on a row-field value (`r.redCount || 0`): falsy
values (`0`, `NaN`, `undefined`) become 0, others are kept. -/
def jor0 : JNum → JNum
  | .fin n => if n = 0 then .fin 0 else .fin n
  | .nan => .fin 0
  | .inf => .inf
  | .ninf => .ninf
  | .undef => .fin 0

/-- How `Array.prototype.join` renders a row-field value: numbers print in
decimal, `NaN` / `Infinity` print their names, `undefined` prints empty. -/
def showJNum : JNum → String
  | .fin n => toString n
  | .nan => "NaN"
  | .inf => "Infinity"
  | .ninf => "-Infinity"
  | .undef => ""

/-- The CSV header line of `buildCsvString`. -/
def csvHeader (hasGlitterBlue : Bool) : String :=
  String.intercalate ","
    ["Round", "Yellow", "Purple(x2)",
     "Blue" ++ (if hasGlitterBlue then "(x2 glitter)" else ""),
     "Red Sum", "Red Count", "Green", "Clear/White", "Pink (Pity)", "Row Total"]

/-- One per-round CSV line of `buildCsvString`:
`[i + 1, r.y, r.purp * 2, hasGlitterBlue ? r.blue * 2 : r.blue, r.redSum,
r.redCount || 0, r.green, r.clear, r.pink, computeRowTotal(r, ...)].join(",")`. -/
def csvLine (hasGlitterBlue : Bool) (i : Nat) (r : Row) : String :=
  String.intercalate ","
    [toString (i + 1), showJNum r.y, showJNum (jmul2 r.purp),
     showJNum (if hasGlitterBlue then jmul2 r.blue else r.blue),
     showJNum r.redSum, showJNum (jor0 r.redCount), showJNum r.green,
     showJNum r.clear, showJNum r.pink,
     toString (computeRowTotal r hasGlitterBlue)]

/-- The CSV footer line: `["","","","","","","","","Total", gameTotal].join(",")`. -/
def csvFooter (gameTotal : Int) : String :=
  String.intercalate ","
    ["", "", "", "", "", "", "", "", "Total", toString gameTotal]

/-- The list `[header, ...lines, footer]` built inside `buildCsvString`. -/
def csvLines (rows : List Row) (hasGlitterBlue : Bool) (gameTotal : Int) :
    List String :=
  csvHeader hasGlitterBlue ::
    (rows.mapIdx (fun i r => csvLine hasGlitterBlue i r) ++ [csvFooter gameTotal])

/-- Function `buildCsvString(playerName, rows, hasGlitterBlue, gameTotal)`; the
`playerName` argument is accepted but unused, exactly as in the source. -/
def buildCsvString (playerName : String) (rows : List Row)
    (hasGlitterBlue : Bool) (gameTotal : Int) : String :=
  let _ := playerName
  String.intercalate "\n" (csvLines rows hasGlitterBlue gameTotal)

/-- The seven dice-color fields settable through the table's inputs; the
string keys passed to `setField` are `"y"`, `"purp"`, `"blue"`,
`"redSum"`, `"green"`, `"clear"`, `"pink"` (never `"redCount"`). -/
inductive FieldKey where
  | y
  | purp
  | blue
  | redSum
  | green
  | clear
  | pink
deriving DecidableEq

/-- Spread update `{ ...row, [key]: val }`: replace one field of a round record. -/
def updateField (r : Row) : FieldKey → JNum → Row
  | .y, v => { r with y := v }
  | .purp, v => { r with purp := v }
  | .blue, v => { r with blue := v }
  | .redSum, v => { r with redSum := v }
  | .green, v => { r with green := v }
  | .clear, v => { r with clear := v }
  | .pink, v => { r with pink := v }

/-- The component state of `App`: rows, active-round pointer, default red
count, player name and the glitter-blue ruleset flag. -/
structure Session where
  rows : List Row
  activeRound : Nat
  defaultRedCount : Int
  playerName : String
  hasGlitterBlue : Bool
deriving DecidableEq

/-- The initial `useState` values of `App`: blank rows, `activeRound = 0`,
`defaultRedCount = 0`, name `"Player"`, flag off. -/
def freshSession : Session :=
  { rows := makeBlankRows, activeRound := 0, defaultRedCount := 0,
    playerName := "Player", hasGlitterBlue := false }

/-- Function `setField(roundIdx, key, val)`: no-op when `rows[roundIdx].locked`,
otherwise replaces that round with the field updated. -/
def setField (s : Session) (roundIdx : Nat) (key : FieldKey) (val : JNum) :
    Session :=
  if (s.rows.getD roundIdx makeBlankRow).locked then s
  else { s with
          rows := s.rows.set roundIdx
            (updateField (s.rows.getD roundIdx makeBlankRow) key val) }

/-- The digit run kept by the cell input handlers:
`raw.replace(/\D+/g, "").slice(0, 3)`. -/
def stripDigits3 (raw : String) : List Char :=
  (raw.data.filter Char.isDigit).take 3

/-- Decimal value of a run of digit characters, as `parseInt(digits, 10)`
computes it on an all-digit string. -/
def digitsToNat (l : List Char) : Nat :=
  l.foldl (fun a c => 10 * a + (c.toNat - 48)) 0

/-- Predicate `raw.startsWith("-")`, stated on the character list. -/
def startsWithMinus (raw : String) : Bool :=
  match raw.data with
  | '-' :: _ => true
  | _ => false

/-- The `handle` coercion of `NumberInput` (the red-sum input): an optional
single leading minus is remembered as the sign, all other non-digits are
stripped, the digit run is capped at 3 and parsed; a bare minus yields `-0`
(stored as 0). -/
def numberInputCoerce (raw : String) : Int :=
  if startsWithMinus raw then
    let digits := stripDigits3 (raw.drop 1)
    if digits = [] then 0
    else -(digitsToNat digits : Int)
  else (digitsToNat (stripDigits3 raw) : Int)

/-- The `handle` coercion of `CellNumber`: identical to `NumberInput`
except that the leading minus is only honoured when `allowNegative` is set
(no call site sets it, so the minus is stripped with the other non-digits). -/
def cellNumberCoerce (allowNegative : Bool) (raw : String) : Int :=
  if allowNegative && startsWithMinus raw then
    let digits := stripDigits3 (raw.drop 1)
    if digits = [] then 0
    else -(digitsToNat digits : Int)
  else (digitsToNat (stripDigits3 raw) : Int)

/-- Which coercion a field's input widget applies: `redSum` renders a
`NumberInput`; every other dice-color field renders a `CellNumber` with
`allowNegative` left at its default `false`. -/
def fieldCoerce : FieldKey → String → Int
  | .redSum, raw => numberInputCoerce raw
  | .y, raw => cellNumberCoerce false raw
  | .purp, raw => cellNumberCoerce false raw
  | .blue, raw => cellNumberCoerce false raw
  | .green, raw => cellNumberCoerce false raw
  | .clear, raw => cellNumberCoerce false raw
  | .pink, raw => cellNumberCoerce false raw

/-- The `disabled` attribute `App` passes to row `i`'s input for a field:
`r.locked || !isActive` for yellow, `r.locked || !isActive || isRound1`
for every other field. -/
def fieldDisabled (s : Session) (i : Nat) (f : FieldKey) : Bool :=
  let r := s.rows.getD i makeBlankRow
  match f with
  | .y => r.locked || (i != s.activeRound)
  | _ => r.locked || (i != s.activeRound) || (i == 0)

/-- A field-set request as the table issues it: the input's `handle`
returns immediately when `disabled`, otherwise coerces the raw text and
calls `setField`. -/
def requestSetField (s : Session) (i : Nat) (f : FieldKey) (raw : String) :
    Session :=
  if fieldDisabled s i f then s
  else setField s i f (.fin (fieldCoerce f raw))

/-- Expression `-(Number(r.redSum) || 0)` as applied by the ± button: non-finite or
zero coerces through `|| 0`, then the value is negated. -/
def negRedSum : JNum → JNum
  | .fin n => .fin (-n)
  | .nan => .fin 0
  | .inf => .ninf
  | .ninf => .inf
  | .undef => .fin 0

/-- The ± button next to the red-sum input: rendered only when
`!r.locked && isActive && !isRound1`; clicking it calls
`setField(i, "redSum", -(Number(r.redSum) || 0))`. -/
def toggleRedSign (s : Session) (i : Nat) : Session :=
  let r := s.rows.getD i makeBlankRow
  if !r.locked && (i == s.activeRound) && (i != 0) then
    setField s i .redSum (negRedSum r.redSum)
  else s

/-- Function `doneRound()`: overwrite the active round with
`{ ...round, redCount: defaultRedCount, locked: true }` and advance
`activeRound` to `Math.min(prev + 1, ROUNDS - 1)`. -/
def doneRound (s : Session) : Session :=
  { s with
    rows := s.rows.set s.activeRound
      { s.rows.getD s.activeRound makeBlankRow with
          redCount := .fin s.defaultRedCount, locked := true },
    activeRound := min (s.activeRound + 1) (ROUNDS - 1) }

/-- Pressing the Done button: the button is rendered for row `i` only when
`isActive && !r.locked`, so the press runs `doneRound` exactly when the
active round is unlocked. -/
def pressDone (s : Session) : Session :=
  if (s.rows.getD s.activeRound makeBlankRow).locked then s
  else doneRound s

/-- The default-red-count header input handler:
`(value || "").replace(/\D+/g, "").slice(0, 2)` then `parseInt(... || "0")`. -/
def defaultRedCoerce (raw : String) : Int :=
  (digitsToNat ((raw.data.filter Char.isDigit).take 2) : Int)

/-- Typing in the default-red-count header input. -/
def setDefaultRed (s : Session) (raw : String) : Session :=
  { s with defaultRedCount := defaultRedCoerce raw }

/-- The red-picker − button: `Math.max(0, (n || 0) - 1)`. -/
def pickerMinus (s : Session) : Session :=
  { s with defaultRedCount := max 0 (s.defaultRedCount - 1) }

/-- The red-picker + button: `Math.min(99, (n || 0) + 1)`. -/
def pickerPlus (s : Session) : Session :=
  { s with defaultRedCount := min 99 (s.defaultRedCount + 1) }

/-- Function `resetAll()` with the confirmation accepted: fresh rows,
`activeRound = 0`, `defaultRedCount = 0`, flag off, name `"Player"`
(the declined branch leaves the state untouched). -/
def resetAll (s : Session) : Session :=
  let _ := s
  { rows := makeBlankRows, activeRound := 0, defaultRedCount := 0,
    playerName := "Player", hasGlitterBlue := false }

/-- Derived `rowTotals`: `rows.map((r) => computeRowTotal(r, hasGlitterBlue))`. -/
def rowTotals (rows : List Row) (hasGlitterBlue : Bool) : List Int :=
  rows.map (fun r => computeRowTotal r hasGlitterBlue)

/-- Derived `allLocked`: `rows.every((r) => r.locked)`. -/
def allLocked (rows : List Row) : Bool :=
  rows.all (fun r => r.locked)

/-- Derived `gameTotal`: `rowTotals.reduce((a, b) => a + b, 0)`. -/
def gameTotal (rows : List Row) (hasGlitterBlue : Bool) : Int :=
  (rowTotals rows hasGlitterBlue).foldl (· + ·) 0

/-- The user-triggerable state-changing operations of the app. -/
inductive Op where
  | edit (i : Nat) (f : FieldKey) (raw : String)
  | toggleRed (i : Nat)
  | done
  | setDefaultRed (raw : String)
  | pickerMinus
  | pickerPlus
  | setName (name : String)
  | setFlag (b : Bool)
  | reset
deriving DecidableEq

/-- Effect of one operation on the session state. -/
def applyOp : Op → Session → Session
  | .edit i f raw, s => requestSetField s i f raw
  | .toggleRed i, s => toggleRedSign s i
  | .done, s => pressDone s
  | .setDefaultRed raw, s => setDefaultRed s raw
  | .pickerMinus, s => pickerMinus s
  | .pickerPlus, s => pickerPlus s
  | .setName name, s => { s with playerName := name }
  | .setFlag b, s => { s with hasGlitterBlue := b }
  | .reset, s => resetAll s

/-- Session states reachable from a fresh session through the controller
operations. -/
inductive Reachable : Session → Prop where
  | fresh : Reachable freshSession
  | step {s : Session} (op : Op) (h : Reachable s) : Reachable (applyOp op s)

/-- Split a character list at commas: the fields of one CSV line (no
quoting or escaping appears in the produced CSV). -/
def splitAtCommas : List Char → List (List Char)
  | [] => [[]]
  | c :: rest =>
    let r := splitAtCommas rest
    if c = ',' then [] :: r
    else (c :: r.headD []) :: r.tail

/-- A parsed JavaScript value as it may appear in a field of the persisted
snapshot object: `undefined` (absent key), `null`, a boolean, a finite
number, `NaN`, a string, a well-formed rounds array, or any other
structure (a malformed object or array). -/
inductive JSValue where
  | undef
  | jnull
  | jbool (b : Bool)
  | jnum (n : Int)
  | jnan
  | jstr (str : String)
  | jrows (rs : List Row)
  | jother
deriving DecidableEq

/-- JavaScript truthiness: `undefined`, `null`, `false`, `0`, `NaN` and
`""` are falsy; every other value (objects and arrays included) is truthy. -/
def truthy : JSValue → Bool
  | .undef => false
  | .jnull => false
  | .jbool b => b
  | .jnum n => n != 0
  | .jnan => false
  | .jstr str => str != ""
  | .jrows _ => true
  | .jother => true

/-- The five fields read off the parsed snapshot object `saved`. -/
structure SavedSnapshot where
  rows : JSValue
  activeRound : JSValue
  defaultRedCount : JSValue
  playerName : JSValue
  hasGlitterBlue : JSValue
deriving DecidableEq

/-- The component state right after the load effect, with each field
holding whatever raw value the load stored into it (`setHasGlitterBlue`
alone coerces with `!!`). -/
structure LoadedState where
  rows : JSValue
  activeRound : JSValue
  defaultRedCount : JSValue
  playerName : JSValue
  hasGlitterBlue : Bool
deriving DecidableEq

/-- The fresh-session defaults the load effect starts from. -/
def freshLoaded : LoadedState :=
  { rows := .jrows makeBlankRows, activeRound := .jnum 0,
    defaultRedCount := .jnum 0, playerName := .jstr "Player",
    hasGlitterBlue := false }

/-- The load effect of `App`: `none` models a missing snapshot, a snapshot
that parses to `null`, or a `JSON.parse` throw swallowed by the
`try`/`catch` (nothing is restored); otherwise each setter applies its own
fallback: `saved.rows || rows`, `saved.activeRound || 0`,
`saved.defaultRedCount ?? 0`, `saved.playerName || "Player"`,
`!!saved.hasGlitterBlue`. -/
def loadSaved : Option SavedSnapshot → LoadedState
  | none => freshLoaded
  | some saved =>
    { rows := if truthy saved.rows then saved.rows else freshLoaded.rows,
      activeRound := if truthy saved.activeRound then saved.activeRound
        else .jnum 0,
      defaultRedCount :=
        match saved.defaultRedCount with
        | .undef => .jnum 0
        | .jnull => .jnum 0
        | v => v,
      playerName := if truthy saved.playerName then saved.playerName
        else .jstr "Player",
      hasGlitterBlue := truthy saved.hasGlitterBlue }

/-- Invariant of the session: every unlocked round carries `redCount = 0`. -/
def RedCountInv (s : Session) : Prop :=
  ∀ i : Nat, (s.rows.getD i makeBlankRow).locked = false →
    (s.rows.getD i makeBlankRow).redCount = JNum.fin 0

/-- Modelled from the spec: the row-score contract of §4.1, written from
the spec's words `yellow + purple*2 + blue*(rulesetFlag ? 2 : 1) +
redSum*redCount + green + clear + pink` with every non-finite or absent
field contributing 0; to be compared with `computeRowTotal`. -/
def specRowScore (round : Row) (rulesetFlag : Bool) : Int :=
  clampNum round.y + clampNum round.purp * 2 +
    clampNum round.blue * (if rulesetFlag then 2 else 1) +
    clampNum round.redSum * clampNum round.redCount +
    clampNum round.green + clampNum round.clear + clampNum round.pink

/-- A locked round used to exercise `doneRound` on already-locked input:
its `redCount` snapshot is 2. -/
def lockedRowC4 : Row :=
  { makeBlankRow with redCount := .fin 2, locked := true }

/-- A session whose active round 0 is already locked with `redCount = 2`
while the session default has since moved to 5. -/
def sessionC4 : Session :=
  { rows := lockedRowC4 :: makeBlankRows 9, activeRound := 0,
    defaultRedCount := 5, playerName := "Player", hasGlitterBlue := false }

/-- A persisted snapshot whose `activeRound` field holds a malformed but
truthy value, with every other field absent. -/
def savedC8 : SavedSnapshot :=
  { rows := .undef, activeRound := .jstr "banana", defaultRedCount := .undef,
    playerName := .undef, hasGlitterBlue := .undef }

/-- Reading at an index after `List.set`, with default. -/
theorem getD_set {α : Type} (l : List α) (i j : Nat) (a d : α) :
    (l.set i a).getD j d = if i = j ∧ j < l.length then a else l.getD j d := by
  by_cases hij : i = j
  · subst hij
    by_cases hi : i < l.length
    · simp [List.getD_eq_getElem?_getD, List.getElem?_set, hi]
    · simp [List.getD_eq_getElem?_getD, List.getElem?_set, hi,
        List.getElem?_eq_none (Nat.le_of_not_lt hi)]
  · simp [List.getD_eq_getElem?_getD, List.getElem?_set, hij]

/-- Reading a replicated list, with default. -/
theorem getD_replicate {α : Type} (n i : Nat) (a d : α) :
    (List.replicate n a).getD i d = if i < n then a else d := by
  simp only [List.getD_eq_getElem?_getD, List.getElem?_replicate]
  split <;> rfl

/-- A field edit never touches a round's `redCount`. -/
theorem updateField_redCount (r : Row) (f : FieldKey) (v : JNum) :
    (updateField r f v).redCount = r.redCount := by
  cases f <;> rfl

/-- A field edit never touches a round's `locked` flag. -/
theorem updateField_locked (r : Row) (f : FieldKey) (v : JNum) :
    (updateField r f v).locked = r.locked := by
  cases f <;> rfl

/-- A digit character's decimal value is at most 9. -/
theorem isDigit_toNat_le {c : Char} (h : c.isDigit = true) : c.toNat - 48 ≤ 9 := by
  simp only [Char.isDigit, Bool.and_eq_true, decide_eq_true_eq, ge_iff_le] at h
  have h2 : c.val.toNat ≤ 57 := h.2
  have h4 : c.toNat = c.val.toNat := rfl
  omega

/-- Bound on the digit-parsing fold from any accumulator. -/
theorem digitsFold_lt (l : List Char) (h : ∀ c ∈ l, c.isDigit = true) :
    ∀ a : Nat, l.foldl (fun a c => 10 * a + (c.toNat - 48)) a <
      (a + 1) * 10 ^ l.length := by
  induction l with
  | nil => intro a; simp only [List.foldl_nil, List.length_nil, Nat.pow_zero,
      Nat.mul_one]; omega
  | cons c t ih =>
    intro a
    have hc : c.toNat - 48 ≤ 9 := isDigit_toNat_le (h c (List.mem_cons_self c t))
    have ht : ∀ x ∈ t, x.isDigit = true := fun x hx => h x (List.mem_cons_of_mem c hx)
    have step : (c :: t).foldl (fun a c => 10 * a + (c.toNat - 48)) a =
        t.foldl (fun a c => 10 * a + (c.toNat - 48)) (10 * a + (c.toNat - 48)) := rfl
    rw [step]
    calc t.foldl (fun a c => 10 * a + (c.toNat - 48)) (10 * a + (c.toNat - 48)) <
        (10 * a + (c.toNat - 48) + 1) * 10 ^ t.length := ih ht _
      _ ≤ ((a + 1) * 10) * 10 ^ t.length := by
          exact Nat.mul_le_mul_right _ (by omega)
      _ = (a + 1) * 10 ^ (c :: t).length := by
          rw [List.length_cons, Nat.pow_succ]
          ring

/-- The capped digit run of any raw input parses to at most 999. -/
theorem digitsToNat_le_999 (raw : String) :
    digitsToNat (stripDigits3 raw) ≤ 999 := by
  have hall : ∀ c ∈ stripDigits3 raw, c.isDigit = true := fun c hc =>
    (List.mem_filter.mp (List.mem_of_mem_take hc)).2
  have hlen : (stripDigits3 raw).length ≤ 3 := by
    simp only [stripDigits3, List.length_take]
    omega
  have hfold := digitsFold_lt (stripDigits3 raw) hall 0
  have hpow : 10 ^ (stripDigits3 raw).length ≤ 1000 :=
    calc 10 ^ (stripDigits3 raw).length ≤ 10 ^ 3 :=
          Nat.pow_le_pow_right (by omega) hlen
      _ = 1000 := by norm_num
  simp only [digitsToNat]
  omega

/-- C1: for every round record and ruleset flag, `computeRowTotal` returns
exactly `yellow + purple*2 + blue*(flag ? 2 : 1) + redSum*redCount + green
+ clear + pink` with every non-finite or absent field contributing 0
(the spec-side formula `specRowScore`), and never errors. -/
theorem c1_row_score_matches_spec (round : Row) (rulesetFlag : Bool) :
    computeRowTotal round rulesetFlag = specRowScore round rulesetFlag := rfl

/-- C7: for every rounds sequence and ruleset flag, `gameTotal` is the sum
of the row scores over all rounds, and it is unchanged by rewriting every
round's lock flag, so it never depends on lock state. -/
theorem c7_game_total_is_sum (rows : List Row) (flag b : Bool) :
    gameTotal rows flag = (rows.map (fun r => computeRowTotal r flag)).sum ∧
    gameTotal (rows.map (fun r => { r with locked := b })) flag =
      gameTotal rows flag := by
  constructor
  · rw [List.sum_eq_foldl]
    rfl
  · unfold gameTotal rowTotals
    rw [List.map_map]
    rfl

/-- C5 counterexample: on the yellow field (a `CellNumber` input, whose
`allowNegative` stays `false`), the raw input `"-007"` stores `7`, not the
`-7` the claim requires of every dice-color field. -/
theorem c5_counterexample :
    ((requestSetField freshSession 0 FieldKey.y "-007").rows.getD 0
        makeBlankRow).y = JNum.fin 7 ∧
      JNum.fin 7 ≠ JNum.fin (-7) := by
  decide

/-- C5 amended: the red-sum setter (`NumberInput`) honours a single leading
minus, strips other non-digits and caps the run at 3 digits, so its values
lie in [-999, 999] with `"12x3" ↦ 123`, `"-" ↦ 0`, `"-007" ↦ -7`; every
other dice-color setter (`CellNumber` with `allowNegative` unset) strips
the minus sign together with the other non-digits, so its values lie in
[0, 999] and `"-007" ↦ 7`. -/
theorem c5_coercion_bounds :
    (∀ raw : String,
      -999 ≤ numberInputCoerce raw ∧ numberInputCoerce raw ≤ 999 ∧
      0 ≤ cellNumberCoerce false raw ∧ cellNumberCoerce false raw ≤ 999) ∧
    numberInputCoerce "12x3" = 123 ∧ numberInputCoerce "-" = 0 ∧
    numberInputCoerce "-007" = -7 ∧ cellNumberCoerce false "12x3" = 123 ∧
    cellNumberCoerce false "-" = 0 ∧ cellNumberCoerce false "-007" = 7 := by
  refine ⟨fun raw => ?_, by decide, by decide, by decide, by decide,
    by decide, by decide⟩
  have h1 := digitsToNat_le_999 raw
  have h2 := digitsToNat_le_999 (raw.drop 1)
  have hcf : cellNumberCoerce false raw = (digitsToNat (stripDigits3 raw) : Int) := rfl
  have hn : -999 ≤ numberInputCoerce raw ∧ numberInputCoerce raw ≤ 999 := by
    have e : numberInputCoerce raw =
        if startsWithMinus raw then
          if stripDigits3 (raw.drop 1) = [] then 0
          else -(digitsToNat (stripDigits3 (raw.drop 1)) : Int)
        else (digitsToNat (stripDigits3 raw) : Int) := rfl
    rw [e]
    split_ifs <;> omega
  rw [hcf]
  refine ⟨hn.1, hn.2, ?_, ?_⟩ <;> omega

/-- C4 counterexample: `doneRound` applied while the active round is
already locked re-snapshots its `redCount` from the current
`defaultRedCount` (2 becomes 5), so the round is not returned unchanged. -/
theorem c4_counterexample :
    (sessionC4.rows.getD 0 makeBlankRow).locked = true ∧
      (doneRound sessionC4).rows.getD 0 makeBlankRow ≠
        sessionC4.rows.getD 0 makeBlankRow := by
  decide

/-- Overwriting `redCount` with its own value and `locked` with `true` on
an already-locked round reproduces the round. -/
theorem lock_update_self (r : Row) (v : JNum) (hl : r.locked = true)
    (hc : r.redCount = v) : { r with redCount := v, locked := true } = r := by
  cases r
  simp_all

/-- C4 amended: the lock operation never errors, but on an already-locked
active round it re-snapshots: the round comes back with `redCount`
overwritten by the current `defaultRedCount` (all other fields kept), and
is entirely unchanged exactly when `defaultRedCount` already equals the
round's stored `redCount`. -/
theorem c4_lock_resnapshots (s : Session) (h : s.activeRound < s.rows.length) :
    (doneRound s).rows.getD s.activeRound makeBlankRow =
      { s.rows.getD s.activeRound makeBlankRow with
          redCount := JNum.fin s.defaultRedCount, locked := true } ∧
    ((s.rows.getD s.activeRound makeBlankRow).locked = true →
      (s.rows.getD s.activeRound makeBlankRow).redCount =
        JNum.fin s.defaultRedCount →
      (doneRound s).rows.getD s.activeRound makeBlankRow =
        s.rows.getD s.activeRound makeBlankRow) := by
  have h1 : (doneRound s).rows.getD s.activeRound makeBlankRow =
      { s.rows.getD s.activeRound makeBlankRow with
          redCount := JNum.fin s.defaultRedCount, locked := true } := by
    unfold doneRound
    simp only
    rw [getD_set, if_pos ⟨rfl, h⟩]
  refine ⟨h1, fun hl hc => ?_⟩
  rw [h1]
  exact lock_update_self _ _ hl hc

/-- C4 witness: the amended theorem applied to the concrete locked
session. -/
theorem c4_witness :
    (doneRound sessionC4).rows.getD sessionC4.activeRound makeBlankRow =
      { sessionC4.rows.getD sessionC4.activeRound makeBlankRow with
          redCount := JNum.fin sessionC4.defaultRedCount, locked := true } :=
  (c4_lock_resnapshots sessionC4 (by decide)).1

/-- C6: `doneRound` locks the active round with the session's
`defaultRedCount` snapshotted into its `redCount` and advances the active
index to `min (index + 1) 9`; ten applications from a fresh session lock
all 10 rounds, leave the index at 9 and make `allLocked` true. -/
theorem c6_complete_active_round :
    (∀ s : Session, s.activeRound < s.rows.length →
      ((doneRound s).rows.getD s.activeRound makeBlankRow).locked = true ∧
      ((doneRound s).rows.getD s.activeRound makeBlankRow).redCount =
        JNum.fin s.defaultRedCount ∧
      (doneRound s).activeRound = min (s.activeRound + 1) 9) ∧
    (doneRound^[10] freshSession).rows.length = 10 ∧
    allLocked (doneRound^[10] freshSession).rows = true ∧
    (doneRound^[10] freshSession).activeRound = 9 := by
  refine ⟨fun s h => ?_, by decide, by decide, by decide⟩
  have h1 : (doneRound s).rows.getD s.activeRound makeBlankRow =
      { s.rows.getD s.activeRound makeBlankRow with
          redCount := JNum.fin s.defaultRedCount, locked := true } := by
    unfold doneRound
    simp only
    rw [getD_set, if_pos ⟨rfl, h⟩]
  rw [h1]
  exact ⟨rfl, rfl, rfl⟩

/-- C6 witness: the universally quantified part applied to the fresh
session. -/
theorem c6_witness :
    ((doneRound freshSession).rows.getD freshSession.activeRound
        makeBlankRow).locked = true :=
  (c6_complete_active_round.1 freshSession (by decide)).1

/-- C2: a field-set request is a no-op whenever the targeted round is
locked, or differs from the active round, or is round 0 with a non-yellow
field; yellow on round 0 succeeds (stores the coerced value) when round 0
is active and unlocked. -/
theorem c2_set_field_gating (s : Session) (i : Nat) (f : FieldKey)
    (raw : String) :
    (((s.rows.getD i makeBlankRow).locked = true ∨ i ≠ s.activeRound ∨
        (i = 0 ∧ f ≠ FieldKey.y)) → requestSetField s i f raw = s) ∧
    (s.activeRound = 0 → (s.rows.getD 0 makeBlankRow).locked = false →
      requestSetField s 0 FieldKey.y raw =
        { s with rows := (s.rows.set 0
            (updateField (s.rows.getD 0 makeBlankRow) FieldKey.y
              (JNum.fin (cellNumberCoerce false raw)))) }) := by
  constructor
  · intro h
    have hd : fieldDisabled s i f = true := by
      unfold fieldDisabled
      rcases h with h | h | ⟨h0, hf⟩
      · rw [List.getD_eq_getElem?_getD] at h
        cases f <;> simp [h]
      · cases f <;> simp [bne_iff_ne, h]
      · subst h0
        cases f <;> simp_all
    unfold requestSetField
    rw [if_pos hd]
  · intro ha hl
    have hd : fieldDisabled s 0 FieldKey.y = false := by
      unfold fieldDisabled
      rw [List.getD_eq_getElem?_getD] at hl
      simp [hl, ha]
    unfold requestSetField
    rw [if_neg (by rw [hd]; exact Bool.false_ne_true)]
    unfold setField
    rw [if_neg (by rw [hl]; exact Bool.false_ne_true)]
    rfl

/-- C2 witness: on a fresh session, setting purple on the (inactive)
round 1 is a no-op, and setting yellow on the active unlocked round 0
stores the coerced value. -/
theorem c2_witness :
    requestSetField freshSession 1 FieldKey.purp "5" = freshSession ∧
    requestSetField freshSession 0 FieldKey.y "7" =
      { freshSession with rows := (freshSession.rows.set 0
          (updateField (freshSession.rows.getD 0 makeBlankRow) FieldKey.y
            (JNum.fin (cellNumberCoerce false "7")))) } :=
  ⟨(c2_set_field_gating freshSession 1 FieldKey.purp "5").1
      (Or.inr (Or.inl (by decide))),
    (c2_set_field_gating freshSession 0 FieldKey.y "7").2 rfl (by decide)⟩

/-- A `setField` call leaves every locked round's record untouched. -/
theorem setField_getD_of_locked (s : Session) (j : Nat) (k : FieldKey)
    (v : JNum) (i : Nat)
    (hl : (s.rows.getD i makeBlankRow).locked = true) :
    (setField s j k v).rows.getD i makeBlankRow =
      s.rows.getD i makeBlankRow := by
  unfold setField
  split
  · rfl
  · rename_i hnl
    simp only
    rw [getD_set]
    split
    · rename_i hc
      obtain ⟨hji, _⟩ := hc
      subst hji
      exact absurd hl hnl
    · rfl

/-- C3: in every reachable session, a locked round's record is unchanged
by every operation other than the whole-session reset, so its seven
dice-color fields and its `redCount` are immutable once locked. -/
theorem c3_locked_round_immutable (s : Session) (hs : Reachable s) (op : Op)
    (hop : op ≠ Op.reset) (i : Nat)
    (hl : (s.rows.getD i makeBlankRow).locked = true) :
    (applyOp op s).rows.getD i makeBlankRow =
      s.rows.getD i makeBlankRow := by
  cases op with
  | edit j f raw =>
    show (requestSetField s j f raw).rows.getD i makeBlankRow = _
    unfold requestSetField
    split
    · rfl
    · exact setField_getD_of_locked s j f _ i hl
  | toggleRed j =>
    show (toggleRedSign s j).rows.getD i makeBlankRow = _
    simp only [toggleRedSign]
    split
    · exact setField_getD_of_locked s j _ _ i hl
    · rfl
  | done =>
    show (pressDone s).rows.getD i makeBlankRow = _
    unfold pressDone
    split
    · rfl
    · rename_i hnl
      unfold doneRound
      simp only
      rw [getD_set]
      split
      · rename_i hc
        obtain ⟨hai, _⟩ := hc
        subst hai
        exact absurd hl hnl
      · rfl
  | setDefaultRed raw => rfl
  | pickerMinus => rfl
  | pickerPlus => rfl
  | setName name => rfl
  | setFlag b => rfl
  | reset => exact absurd rfl hop

/-- C3 witness: after locking round 0, an attempted yellow edit on round 0
leaves the locked record unchanged. -/
theorem c3_witness :
    (applyOp (Op.edit 0 FieldKey.y "5") (applyOp Op.done freshSession)).rows.getD
        0 makeBlankRow =
      (applyOp Op.done freshSession).rows.getD 0 makeBlankRow :=
  c3_locked_round_immutable (applyOp Op.done freshSession)
    (Reachable.step Op.done Reachable.fresh) (Op.edit 0 FieldKey.y "5")
    (by decide) 0 (by decide)

/-- A `setField` call preserves the unlocked-rounds-have-zero-`redCount`
invariant: the edit never targets `redCount` or `locked`. -/
theorem setField_redCountInv (s : Session) (j : Nat) (k : FieldKey)
    (v : JNum) (h : RedCountInv s) : RedCountInv (setField s j k v) := by
  unfold setField
  split
  · exact h
  · intro i
    simp only
    rw [getD_set]
    split
    · rename_i hc
      obtain ⟨hji, _⟩ := hc
      rw [updateField_locked, updateField_redCount]
      subst hji
      exact h j
    · exact h i

/-- Every operation preserves the unlocked-rounds-have-zero-`redCount`
invariant. -/
theorem redCountInv_step (op : Op) (s : Session) (h : RedCountInv s) :
    RedCountInv (applyOp op s) := by
  cases op with
  | edit j f raw =>
    show RedCountInv (requestSetField s j f raw)
    unfold requestSetField
    split
    · exact h
    · exact setField_redCountInv s j f _ h
  | toggleRed j =>
    show RedCountInv (toggleRedSign s j)
    simp only [toggleRedSign]
    split
    · exact setField_redCountInv s j _ _ h
    · exact h
  | done =>
    show RedCountInv (pressDone s)
    unfold pressDone
    split
    · exact h
    · intro i hli
      unfold doneRound at hli ⊢
      simp only at hli ⊢
      rw [getD_set] at hli ⊢
      by_cases hc : s.activeRound = i ∧ i < s.rows.length
      · rw [if_pos hc] at hli
        exact absurd hli (by simp)
      · rw [if_neg hc] at hli ⊢
        exact h i hli
  | setDefaultRed raw => exact h
  | pickerMinus => exact h
  | pickerPlus => exact h
  | setName name => exact h
  | setFlag b => exact h
  | reset =>
    intro i _
    show ((makeBlankRows ROUNDS).getD i makeBlankRow).redCount = JNum.fin 0
    rw [makeBlankRows, getD_replicate]
    split <;> rfl

/-- Every reachable session satisfies the invariant. -/
theorem reachable_redCountInv {s : Session} (hs : Reachable s) :
    RedCountInv s := by
  induction hs with
  | fresh =>
    intro i _
    show ((makeBlankRows ROUNDS).getD i makeBlankRow).redCount = JNum.fin 0
    rw [makeBlankRows, getD_replicate]
    split <;> rfl
  | step op h ih => exact redCountInv_step op _ ih

/-- C10: in every session reachable from a fresh session through the
controller operations, every round whose `locked` flag is false has
`redCount = 0`; a nonzero `redCount` can only sit on a locked round. -/
theorem c10_unlocked_red_count_zero (s : Session) (hs : Reachable s)
    (i : Nat) (hu : (s.rows.getD i makeBlankRow).locked = false) :
    (s.rows.getD i makeBlankRow).redCount = JNum.fin 0 :=
  reachable_redCountInv hs i hu

/-- C10 witness: the invariant evaluated on a reachable session that has
taken a field edit. -/
theorem c10_witness :
    ((applyOp (Op.edit 0 FieldKey.y "5") freshSession).rows.getD 0
        makeBlankRow).redCount = JNum.fin 0 :=
  c10_unlocked_red_count_zero (applyOp (Op.edit 0 FieldKey.y "5") freshSession)
    (Reachable.step (Op.edit 0 FieldKey.y "5") Reachable.fresh) 0 (by decide)

/-- C8 counterexample: a snapshot whose `activeRound` holds the malformed
but truthy value `"banana"` is restored as-is instead of falling back to
the fresh default `0`, contradicting the claim that any malformed field
falls back to its default. -/
theorem c8_counterexample :
    (loadSaved (some savedC8)).activeRound = JSValue.jstr "banana" ∧
      JSValue.jstr "banana" ≠ freshLoaded.activeRound := by
  decide

/-- C8 amended: a missing, null or unparsable snapshot leaves every field
at its fresh default and the load never fails as a whole; otherwise each
field falls back to its fresh default independently exactly when it is
absent or otherwise falsy (for `defaultRedCount`, only when absent or
null), a present truthy value is restored as-is even if malformed, and the
ruleset flag is coerced to its truthiness. -/
theorem c8_load_fallback :
    loadSaved none = freshLoaded ∧
    ∀ sv : SavedSnapshot,
      (truthy sv.rows = false → (loadSaved (some sv)).rows = freshLoaded.rows) ∧
      (truthy sv.rows = true → (loadSaved (some sv)).rows = sv.rows) ∧
      (truthy sv.activeRound = false →
        (loadSaved (some sv)).activeRound = JSValue.jnum 0) ∧
      (truthy sv.activeRound = true →
        (loadSaved (some sv)).activeRound = sv.activeRound) ∧
      ((sv.defaultRedCount = JSValue.undef ∨ sv.defaultRedCount = JSValue.jnull) →
        (loadSaved (some sv)).defaultRedCount = JSValue.jnum 0) ∧
      (sv.defaultRedCount ≠ JSValue.undef → sv.defaultRedCount ≠ JSValue.jnull →
        (loadSaved (some sv)).defaultRedCount = sv.defaultRedCount) ∧
      (truthy sv.playerName = false →
        (loadSaved (some sv)).playerName = freshLoaded.playerName) ∧
      (truthy sv.playerName = true →
        (loadSaved (some sv)).playerName = sv.playerName) ∧
      (loadSaved (some sv)).hasGlitterBlue = truthy sv.hasGlitterBlue := by
  refine ⟨rfl, fun sv => ⟨?_, ?_, ?_, ?_, ?_, ?_, ?_, ?_, rfl⟩⟩
  · intro h; simp [loadSaved, h]
  · intro h; simp [loadSaved, h]
  · intro h; simp [loadSaved, h]
  · intro h; simp [loadSaved, h]
  · rintro (h | h) <;> simp [loadSaved, h]
  · intro h1 h2
    cases hv : sv.defaultRedCount <;> simp_all [loadSaved]
  · intro h; simp [loadSaved, freshLoaded, h]
  · intro h; simp [loadSaved, h]

/-- C8 witness: the amended fallback behaviour evaluated on the concrete
snapshot: the absent `rows` field falls back while the truthy malformed
`activeRound` is restored as-is. -/
theorem c8_witness :
    (loadSaved (some savedC8)).rows = freshLoaded.rows ∧
      (loadSaved (some savedC8)).activeRound = savedC8.activeRound :=
  ⟨((c8_load_fallback.2 savedC8).1) (by decide),
    ((c8_load_fallback.2 savedC8).2.2.2.1) (by decide)⟩

/-- C9: the CSV builder is a pure function of `(rows, flag, gameTotal)`;
its header has exactly 10 comma-separated fields, the line list has length
`rows.length + 2` (header, one `csvLine` per round — with purple and blue
pre-multiplied and `redCount` defaulted through `|| 0` — and a footer),
and the footer carries the label `"Total"` and the game total. -/
theorem c9_csv_export_shape (playerName : String) (rows : List Row)
    (flag : Bool) (total : Int) :
    (csvLines rows flag total).length = rows.length + 2 ∧
    (splitAtCommas (csvHeader flag).data).length = 10 ∧
    (csvLines rows flag total).getD 0 "" = csvHeader flag ∧
    (∀ i, i < rows.length →
      (csvLines rows flag total).getD (i + 1) "" =
        csvLine flag i (rows.getD i makeBlankRow)) ∧
    (csvLines rows flag total).getD (rows.length + 1) "" = csvFooter total ∧
    csvFooter total = String.intercalate ","
      ["", "", "", "", "", "", "", "", "Total", toString total] ∧
    buildCsvString playerName rows flag total =
      String.intercalate "\n" (csvLines rows flag total) := by
  refine ⟨?_, ?_, rfl, ?_, ?_, rfl, rfl⟩
  · simp [csvLines, List.length_append, List.length_mapIdx]
  · cases flag <;> decide
  · intro i hi
    have h1 : rows[i]? = some (rows.getD i makeBlankRow) := by
      rw [List.getD_eq_getElem?_getD, List.getElem?_eq_getElem hi]
      rfl
    simp only [csvLines, List.getD_eq_getElem?_getD, List.getElem?_cons_succ]
    rw [List.getElem?_append,
      if_pos (by simpa [List.length_mapIdx] using hi),
      List.getElem?_mapIdx, h1]
    rfl
  · simp only [csvLines, List.getD_eq_getElem?_getD, List.getElem?_cons_succ]
    rw [List.getElem?_append, if_neg (by simp [List.length_mapIdx])]
    simp [List.length_mapIdx]

/-- C9 witness: the per-round line characterization evaluated on a fresh
sheet's first round. -/
theorem c9_witness :
    (csvLines (makeBlankRows ROUNDS) false 0).getD 1 "" =
      csvLine false 0 ((makeBlankRows ROUNDS).getD 0 makeBlankRow) :=
  (c9_csv_export_shape "Player" (makeBlankRows ROUNDS) false 0).2.2.2.1 0
    (by decide)

end PandaRoyale
